import Mathlib

set_option maxHeartbeats 1000000

namespace TextToVisual

/-- JavaScript strings are modelled as lists of characters. -/
abbrev JStr := List Char

/-- Truthiness of an optional string field of a JSON body, as tested by
`if (!prompt)` in the handlers: a missing field and the empty string are falsy. -/
def jsFalsy : Option JStr → Bool
  | none => true
  | some s => s.isEmpty

/-- JS `s.trim()`: drop whitespace from both ends of the string. -/
def jsTrim (s : JStr) : JStr :=
  ((s.dropWhile Char.isWhitespace).reverse.dropWhile Char.isWhitespace).reverse

/-- JS `s.startsWith(p)` (pattern first argument here). -/
def jsStartsWith : JStr → JStr → Bool
  | [], _ => true
  | _ :: _, [] => false
  | p :: ps, c :: cs => p == c && jsStartsWith ps cs

/-- JS `s.endsWith(p)`. -/
def jsEndsWith (p s : JStr) : Bool := jsStartsWith p.reverse s.reverse

/-- JS `v || dflt` for a string-typed field: falls back when the field is
missing or the empty string. -/
def jsOr (s : Option JStr) (dflt : JStr) : JStr :=
  match s with
  | none => dflt
  | some v => if v.isEmpty then dflt else v

/-- The fixed quality descriptors appended by the enhancement fallback in
`getEnhancedPrompt` (backend). -/
def fallbackTail : JStr := ", high resolution, ultra detailed, cinematic lighting".toList

/-- Embedding of the backend `getEnhancedPrompt(prompt, style)`.  The outcome of
the Gemini call is passed in: `some t` models `generateContent` succeeding with
response text `t` (the code returns `response.text().trim()`); `none` models the
call throwing, in which case the `catch` returns the template
`prompt, style, high resolution, ultra detailed, cinematic lighting`. -/
def getEnhancedPrompt (prompt style : JStr) (gemini : Option JStr) : JStr :=
  match gemini with
  | some t => jsTrim t
  | none => prompt ++ ", ".toList ++ style ++ fallbackTail

/-- The backquote character (code point 96). -/
def btick : Char := Char.ofNat 96

/-- A markdown code-fence marker: three backquotes. -/
def fence : JStr := [btick, btick, btick]

/-- The language tag of a mermaid code fence. -/
def mermaidTag : JStr := ['m', 'e', 'r', 'm', 'a', 'i', 'd']

/-- The opening fence of a mermaid code block. -/
def mermaidFence : JStr := fence ++ mermaidTag

/-- One application of the anchored regex replace `s.replace(/^P\n?/, '')`:
strips pattern `p` followed by an optional newline from the front, once. -/
def stripLeadOnce (p s : JStr) : JStr :=
  if jsStartsWith (p ++ ['\n']) s then s.drop (p.length + 1)
  else if jsStartsWith p s then s.drop p.length
  else s

/-- One application of `s.replace(/\n?```$/, '')`: strips a trailing fence,
together with a directly preceding newline when present, once. -/
def stripTrailFence (s : JStr) : JStr :=
  if jsEndsWith ('\n' :: fence) s then s.take (s.length - 4)
  else if jsEndsWith fence s then s.take (s.length - 3)
  else s

/-- The fixed two-node error graph returned by `getMermaidCode` on failure. -/
def errorGraph : JStr := "graph TD\nA[Error] --> B[Diagram Generation Failed]".toList

/-- Embedding of the backend `getMermaidCode(prompt)` post-processing.  `some t`
models the Gemini call succeeding with response text `t`: the code trims it and
then applies, in order, `replace(/^```mermaid\n?/, '')`, `replace(/^```\n?/, '')`
and `replace(/\n?```$/, '')`.  `none` models the call throwing, in which case
the `catch` returns the fixed error graph. -/
def getMermaidCode (gemini : Option JStr) : JStr :=
  match gemini with
  | some t => stripTrailFence (stripLeadOnce fence (stripLeadOnce mermaidFence (jsTrim t)))
  | none => errorGraph

/-- The base64 alphabet used by `Buffer.toString('base64')`. -/
def base64Alphabet : List Char :=
  "ABCDEFGHIJKLMNOPQRSTUVWXYZabcdefghijklmnopqrstuvwxyz0123456789+/".toList

/-- Character of the base64 alphabet at a given index. -/
def b64char (n : Nat) : Char := base64Alphabet.getD n '='

/-- Base64 encoding of a byte list, as produced by
`Buffer.from(buffer).toString('base64')`. -/
def base64Encode : List Nat → JStr
  | [] => []
  | [a] =>
      [b64char (a % 256 / 4), b64char (a % 4 * 16), '=', '=']
  | [a, b] =>
      [b64char (a % 256 / 4), b64char (a % 4 * 16 + b % 256 / 16), b64char (b % 16 * 4), '=']
  | a :: b :: c :: rest =>
      b64char (a % 256 / 4) :: b64char (a % 4 * 16 + b % 256 / 16) ::
      b64char (b % 16 * 4 + c % 256 / 64) :: b64char (c % 64) :: base64Encode rest

/-- One outbound call to an external model service, recorded for the handler
traces: the Gemini enhancement call, the Gemini diagram call, or the
HuggingFace image call (with the `inputs` text submitted in its body). -/
inductive UpstreamCall where
  | enhanceCall (prompt style : JStr)
  | mermaidCall (prompt : JStr)
  | imageCall (inputs : JStr)
deriving DecidableEq

/-- The HTTP response of the HuggingFace fetch: its status code, its body bytes
(read when ok), and the best-effort parsed error details (read when not ok). -/
structure HFResponse where
  status : Nat
  bytes : List Nat
  errDetails : JStr
deriving DecidableEq

/-- `hfResponse.ok`: status in the 200-299 range. -/
def HFResponse.ok (r : HFResponse) : Bool := 200 ≤ r.status && r.status < 300

/-- Outcomes of the three possible outbound calls for one request:
`none` in a Gemini field models that call throwing; `none` in `hfFetch`
models the fetch itself throwing (network failure). -/
structure Upstream where
  geminiEnhance : Option JStr
  geminiMermaid : Option JStr
  hfFetch : Option HFResponse
deriving DecidableEq

/-- The JSON body of a server response. -/
inductive Body where
  | errorMsg (msg : JStr)
  | errorWithDetails (msg details : JStr)
  | generateOk (enhancedPrompt image : JStr)
  | diagramOk (mermaidCode : JStr)
deriving DecidableEq

/-- An HTTP response of the server: status code and JSON body. -/
structure Response where
  status : Nat
  body : Body
deriving DecidableEq

/-- The default style tag substituted by `style || 'realistic'`. -/
def realisticStyle : JStr := "realistic".toList

/-- The data-URI head prepended to the base64 image payload. -/
def dataUriStart : JStr := "data:image/jpeg;base64,".toList

/-- Embedding of `app.post('/generate')`.  Returns the response together with
the list of outbound model calls issued, in order.  Follows the source: missing
or empty prompt gives 400 before anything else; missing or empty HuggingFace
key gives 500 before any model call; otherwise the Gemini enhancement runs
first, its result is submitted verbatim as the image-model `inputs`, a
non-success image response is forwarded with its own status code and error
details, a throwing fetch lands in the outer catch as 500, and success returns
200 with the enhanced prompt and the base64 data URI of the image bytes. -/
def postGenerate (prompt style : Option JStr) (hfKey : Option JStr) (up : Upstream) :
    Response × List UpstreamCall :=
  if jsFalsy prompt then (⟨400, .errorMsg "Prompt is required".toList⟩, [])
  else if jsFalsy hfKey then (⟨500, .errorMsg "HF Key missing".toList⟩, [])
  else
    let p := prompt.getD []
    let st := jsOr style realisticStyle
    let enhanced := getEnhancedPrompt p st up.geminiEnhance
    let calls := [UpstreamCall.enhanceCall p st, UpstreamCall.imageCall enhanced]
    match up.hfFetch with
    | none => (⟨500, .errorMsg "Internal Server Error".toList⟩, calls)
    | some r =>
      if r.ok then
        (⟨200, .generateOk enhanced (dataUriStart ++ base64Encode r.bytes)⟩, calls)
      else
        (⟨r.status, .errorWithDetails "HF API failed".toList r.errDetails⟩, calls)

/-- Embedding of `app.post('/generate-diagram')`: missing or empty prompt gives
400 with no outbound call; otherwise the diagram requester runs (absorbing its
own failures) and the endpoint replies 200 with the mermaid code. -/
def postGenerateDiagram (prompt : Option JStr) (up : Upstream) :
    Response × List UpstreamCall :=
  if jsFalsy prompt then (⟨400, .errorMsg "Prompt is required".toList⟩, [])
  else
    let p := prompt.getD []
    (⟨200, .diagramOk (getMermaidCode up.geminiMermaid)⟩, [UpstreamCall.mermaidCall p])

/-- The rate-limit window length in milliseconds, from the `limiter`
configuration (`windowMs: 15 * 60 * 1000`). -/
def rlWindowMs : Nat := 15 * 60 * 1000

/-- The rate-limit maximum request count per window, from the `limiter`
configuration (`max: 100`). -/
def rlMax : Nat := 100

/-- The JSON error body returned on excess requests, from the `limiter`
configuration (`message`). -/
def rlMessage : Body :=
  .errorMsg "Too many requests from this IP, please try again after 15 minutes".toList

/-- State of the per-caller rate-limit counter: the index of the current
fixed window and the number of requests counted in it. -/
structure RLState where
  window : Nat
  count : Nat
deriving DecidableEq

/-- Modelled from the spec: the `express-rate-limit` middleware itself is a
dependency, not part of this repository's sources; the spec describes it as a
fixed-window counter per caller, reset on the window boundary, serving a
request while the window's count is within the configured maximum and
answering excess requests with the configured JSON error body.  One step
processes a request arriving at time `t` (milliseconds): requests in the same
fixed window increment the counter, a new window resets it, and the request is
served iff the updated count is within `rlMax`. -/
def rlStep (st : RLState) (t : Nat) : RLState × Bool :=
  let w := t / rlWindowMs
  let st' : RLState := if w = st.window then ⟨st.window, st.count + 1⟩ else ⟨w, 1⟩
  (st', decide (st'.count ≤ rlMax))

/-- Runs the rate limiter over a list of request arrival times from a given
state, recording for each request its time, whether it was served, and the
JSON error body handed to it when it was not. -/
def rlRunAux (st : RLState) : List Nat → List (Nat × Bool × Option Body)
  | [] => []
  | t :: ts =>
      let step := rlStep st t
      (t, step.2, if step.2 then none else some rlMessage) :: rlRunAux step.1 ts

/-- Runs the rate limiter for one caller from the fresh state. -/
def rlRun (ts : List Nat) : List (Nat × Bool × Option Body) := rlRunAux ⟨0, 0⟩ ts

/-- An archived record of the remote store's `visuals` collection, with the
fields written by `handleSaveToCloud` (the `type` field is the constant
`'manifestation'` and is omitted); `createdAt` is the store-assigned creation
timestamp. -/
structure Archived where
  prompt : JStr
  image : JStr
  enhancedPrompt : JStr
  mermaidCode : JStr
  style : JStr
  archivist : JStr
  createdAt : Nat
deriving DecidableEq

/-- The ordering used by the history query: later creation first. -/
def byCreatedAtDesc (a b : Archived) : Prop := b.createdAt ≤ a.createdAt

instance : DecidableRel byCreatedAtDesc := fun a b => Nat.decLe b.createdAt a.createdAt

instance : IsTotal Archived byCreatedAtDesc :=
  ⟨fun a b => Nat.le_total b.createdAt a.createdAt⟩

instance : IsTrans Archived byCreatedAtDesc :=
  ⟨fun _ _ _ hab hbc => Nat.le_trans hbc hab⟩

/-- Modelled from the spec: the ordering of `fetchHistory` is performed by the
remote document store, whose query engine is not part of this repository's
sources; the client issues `query(collection(db, "visuals"), orderBy("createdAt",
"desc"))` and the spec states the read query orders by creation time
descending.  The listing is modelled as sorting the stored records by
`createdAt`, descending. -/
def fetchHistory (docs : List Archived) : List Archived :=
  List.insertionSort byCreatedAtDesc docs

lemma isEmpty_false_of_ne_nil {l : JStr} (h : l ≠ []) : l.isEmpty = false := by
  cases l with
  | nil => exact absurd rfl h
  | cons a as => rfl

lemma jsStartsWith_append_self (p r : JStr) : jsStartsWith p (p ++ r) = true := by
  induction p with
  | nil => simp [jsStartsWith]
  | cons a ps ih => simp [jsStartsWith, ih]

lemma jsStartsWith_of_append {p q s : JStr} (h : jsStartsWith (p ++ q) s = true) :
    jsStartsWith p s = true := by
  induction p generalizing s with
  | nil => simp [jsStartsWith]
  | cons a ps ih =>
      match s with
      | [] => simp [jsStartsWith] at h
      | c :: cs =>
          simp only [List.cons_append, jsStartsWith, Bool.and_eq_true] at h ⊢
          exact ⟨h.1, ih h.2⟩

lemma jsStartsWith_append_cancel (p q s : JStr) :
    jsStartsWith (p ++ q) (p ++ s) = jsStartsWith q s := by
  induction p with
  | nil => simp
  | cons a ps ih => simp [jsStartsWith, ih]

lemma jsStartsWith_fence_blocked (b l : JStr) (hb : jsStartsWith fence b = false) :
    jsStartsWith fence (b ++ '\n' :: l) = false := by
  match b with
  | [] => simp [fence, jsStartsWith, show (btick == '\n') = false from by decide]
  | [c] => simp [fence, jsStartsWith, show (btick == '\n') = false from by decide]
  | [c, d] => simp [fence, jsStartsWith, show (btick == '\n') = false from by decide]
  | c :: d :: e :: bs =>
      simp only [fence, jsStartsWith, List.cons_append] at hb ⊢
      simpa using hb

lemma stripLeadOnce_strips (p r : JStr) : stripLeadOnce p (p ++ '\n' :: r) = r := by
  have hshape : p ++ '\n' :: r = (p ++ ['\n']) ++ r := by simp
  have h1 : jsStartsWith (p ++ ['\n']) (p ++ '\n' :: r) = true := by
    rw [hshape]; exact jsStartsWith_append_self _ _
  unfold stripLeadOnce
  rw [h1]
  simp only [if_true, hshape]
  have hlen : p.length + 1 = (p ++ ['\n']).length := by simp
  rw [hlen, List.drop_left]

lemma stripLeadOnce_id (p s : JStr)
    (h1 : jsStartsWith (p ++ ['\n']) s = false) (h2 : jsStartsWith p s = false) :
    stripLeadOnce p s = s := by
  unfold stripLeadOnce
  rw [h1, h2]
  simp

lemma stripLeadOnce_fence_skips (b : JStr) (hb : jsStartsWith fence b = false) :
    stripLeadOnce fence (b ++ '\n' :: fence) = b ++ '\n' :: fence := by
  have h2 : jsStartsWith fence (b ++ '\n' :: fence) = false :=
    jsStartsWith_fence_blocked b fence hb
  apply stripLeadOnce_id
  · cases hx : jsStartsWith (fence ++ ['\n']) (b ++ '\n' :: fence) with
    | false => rfl
    | true => exact absurd (jsStartsWith_of_append hx) (by simp [h2])
  · exact h2

lemma stripLeadOnce_mermaid_skips_plain (r : JStr) :
    stripLeadOnce mermaidFence (fence ++ '\n' :: r) = fence ++ '\n' :: r := by
  apply stripLeadOnce_id
  · show jsStartsWith ((fence ++ mermaidTag) ++ ['\n']) (fence ++ '\n' :: r) = false
    rw [List.append_assoc, jsStartsWith_append_cancel]
    simp [mermaidTag, jsStartsWith, show ('m' == '\n') = false from by decide]
  · show jsStartsWith (fence ++ mermaidTag) (fence ++ '\n' :: r) = false
    rw [jsStartsWith_append_cancel]
    simp [mermaidTag, jsStartsWith, show ('m' == '\n') = false from by decide]

lemma stripTrailFence_strips (b : JStr) : stripTrailFence (b ++ '\n' :: fence) = b := by
  have h1 : jsEndsWith ('\n' :: fence) (b ++ '\n' :: fence) = true := by
    unfold jsEndsWith
    rw [List.reverse_append]
    exact jsStartsWith_append_self _ _
  unfold stripTrailFence
  rw [h1]
  simp only [if_true]
  have hlen : (b ++ '\n' :: fence).length = b.length + 4 := by simp [fence]
  rw [hlen]
  have h4 : b.length + 4 - 4 = b.length := by omega
  rw [h4]
  have hshape : b ++ '\n' :: fence = b ++ ('\n' :: fence) := rfl
  rw [hshape, List.take_left]

lemma rlRunAux_unserved_body (ts : List Nat) :
    ∀ st, ∀ r ∈ rlRunAux st ts, r.2.1 = false → r.2.2 = some rlMessage := by
  induction ts with
  | nil => intro st r hr; simp [rlRunAux] at hr
  | cons t ts ih =>
      intro st r hr hsv
      rw [rlRunAux] at hr
      rcases List.mem_cons.mp hr with hr | hr
      · subst hr
        simp only at hsv ⊢
        rw [hsv]
        simp
      · exact ih _ r hr hsv

lemma rlRunAux_served_count (ts : List Nat) :
    ∀ c w, (∀ t ∈ ts, t / rlWindowMs = w) →
      (rlRunAux ⟨w, c⟩ ts).countP (fun r => r.2.1) ≤ rlMax - c := by
  induction ts with
  | nil => intro c w _; simp [rlRunAux]
  | cons t ts ih =>
      intro c w hw
      have htw : t / rlWindowMs = w := hw t (by simp)
      have hrec := ih (c + 1) w (fun t' ht' => hw t' (List.mem_cons_of_mem _ ht'))
      by_cases hc : c + 1 ≤ rlMax
      · simp [rlRunAux, rlStep, htw, hc, List.countP_cons]
        simp [rlMax] at hrec hc ⊢
        omega
      · simp [rlRunAux, rlStep, htw, hc, List.countP_cons]
        simp [rlMax] at hrec hc ⊢
        omega

/-- C1 (counterexample): the claim "a non-success upstream image response is
answered with HTTP 500" is false on the code: the handler forwards the
upstream status code itself.  Here the HuggingFace call answers 404 (a
non-success response, `ok = false`), and the endpoint responds 404, not 500. -/
theorem generate_upstream_404_not_500 :
    HFResponse.ok ⟨404, [], "not found".toList⟩ = false ∧
    (postGenerate (some "a cat".toList) none (some "k".toList)
      ⟨some "enhanced".toList, none, some ⟨404, [], "not found".toList⟩⟩).1.status = 404 ∧
    (postGenerate (some "a cat".toList) none (some "k".toList)
      ⟨some "enhanced".toList, none, some ⟨404, [], "not found".toList⟩⟩).1.status ≠ 500 := by
  decide

/-- C1 (amended): for every POST /generate request where the image-generation
upstream call returns a non-success response, the endpoint responds with the
upstream response's own HTTP status code, with best-effort error detail
passthrough in the body. -/
theorem generate_upstream_failure_mirrors_status (prompt style : Option JStr) (key : JStr)
    (ge gm : Option JStr) (r : HFResponse)
    (hp : jsFalsy prompt = false) (hk : key ≠ []) (hok : r.ok = false) :
    (postGenerate prompt style (some key) ⟨ge, gm, some r⟩).1 =
      ⟨r.status, .errorWithDetails "HF API failed".toList r.errDetails⟩ := by
  have hk' : jsFalsy (some key) = false := by
    simp [jsFalsy, isEmpty_false_of_ne_nil hk]
  simp [postGenerate, hp, hk', hok]

/-- Witness for the amended C1 theorem at a concrete non-success status. -/
theorem generate_upstream_failure_mirrors_status_witness :
    jsFalsy (some "p".toList) = false ∧ "k".toList ≠ [] ∧
    HFResponse.ok ⟨502, [], "bad gateway".toList⟩ = false ∧
    (postGenerate (some "p".toList) (some "anime".toList) (some "k".toList)
      ⟨none, none, some ⟨502, [], "bad gateway".toList⟩⟩).1 =
      ⟨502, .errorWithDetails "HF API failed".toList "bad gateway".toList⟩ :=
  ⟨by decide, by decide, by decide,
    generate_upstream_failure_mirrors_status (some "p".toList) (some "anime".toList)
      "k".toList none none ⟨502, [], "bad gateway".toList⟩ (by decide) (by decide) (by decide)⟩

/-- C2 (counterexample): the claim that a whitespace-only prompt is answered
with 400 and zero upstream calls is false on the code: the handlers test
`!prompt`, which is false for a nonempty whitespace string, so the request
proceeds and an upstream call is issued (here on the diagram endpoint,
which answers 200). -/
theorem diagram_whitespace_prompt_not_rejected :
    (postGenerateDiagram (some [' ']) ⟨none, some "graph TD".toList, none⟩).1.status = 200 ∧
    (postGenerateDiagram (some [' ']) ⟨none, some "graph TD".toList, none⟩).2 =
      [UpstreamCall.mermaidCall [' ']] := by
  decide

/-- C2 (amended): for every request to POST /generate or POST /generate-diagram
whose prompt is missing or empty, the endpoint returns HTTP 400 and issues zero
upstream model calls (whitespace-only prompts are not rejected server-side). -/
theorem missing_or_empty_prompt_yields_400_no_calls
    (prompt style hfKey : Option JStr) (up : Upstream) (hp : jsFalsy prompt = true) :
    postGenerate prompt style hfKey up = (⟨400, .errorMsg "Prompt is required".toList⟩, []) ∧
    postGenerateDiagram prompt up = (⟨400, .errorMsg "Prompt is required".toList⟩, []) := by
  constructor <;> simp [postGenerate, postGenerateDiagram, hp]

/-- Witness for the amended C2 theorem at a missing prompt. -/
theorem missing_or_empty_prompt_yields_400_no_calls_witness :
    jsFalsy (none : Option JStr) = true ∧
    postGenerate none none (some "k".toList) ⟨none, none, none⟩ =
      (⟨400, .errorMsg "Prompt is required".toList⟩, []) ∧
    postGenerateDiagram none ⟨none, none, none⟩ =
      (⟨400, .errorMsg "Prompt is required".toList⟩, []) :=
  ⟨by decide,
    missing_or_empty_prompt_yields_400_no_calls none none (some "k".toList)
      ⟨none, none, none⟩ (by decide)⟩

/-- C3 (counterexample): the claim that the diagram endpoint's value never has
a leading or trailing code-fence marker, for every upstream text, is false on
the code: each replace strips only one leading layer, so a doubled leading
fence survives.  For the upstream text consisting of a bare fence line, a
mermaid-free fence line and a graph line, the result still starts with a
fence. -/
theorem diagram_double_fence_keeps_fence :
    getMermaidCode (some "```\n```\ngraph TD".toList) = "```\ngraph TD".toList ∧
    jsStartsWith fence (getMermaidCode (some "```\n```\ngraph TD".toList)) = true := by
  decide

/-- C3 (amended): for every upstream text wrapped in a single markdown code
fence (an opening fence line, with or without the mermaid language tag, and a
closing fence), where the inner body itself neither starts nor ends with a
fence marker, the diagram requester returns exactly the inner body, which has
no leading and no trailing code-fence markers. -/
theorem diagram_strips_single_fence (t b : JStr)
    (hb1 : jsStartsWith fence b = false)
    (hb2 : jsEndsWith fence b = false)
    (ht : jsTrim t = mermaidFence ++ '\n' :: (b ++ '\n' :: fence) ∨
          jsTrim t = fence ++ '\n' :: (b ++ '\n' :: fence)) :
    getMermaidCode (some t) = b ∧
    jsStartsWith fence (getMermaidCode (some t)) = false ∧
    jsEndsWith fence (getMermaidCode (some t)) = false := by
  have hmain : getMermaidCode (some t) = b := by
    show stripTrailFence (stripLeadOnce fence (stripLeadOnce mermaidFence (jsTrim t))) = b
    rcases ht with h | h
    · rw [h, stripLeadOnce_strips, stripLeadOnce_fence_skips b hb1, stripTrailFence_strips]
    · rw [h, stripLeadOnce_mermaid_skips_plain, stripLeadOnce_strips, stripTrailFence_strips]
  refine ⟨hmain, ?_, ?_⟩
  · rw [hmain]; exact hb1
  · rw [hmain]; exact hb2

/-- Witness for the amended C3 theorem on a concrete mermaid-fenced text. -/
theorem diagram_strips_single_fence_witness :
    jsStartsWith fence "graph TD\nA --> B".toList = false ∧
    jsEndsWith fence "graph TD\nA --> B".toList = false ∧
    jsTrim "```mermaid\ngraph TD\nA --> B\n```".toList =
      mermaidFence ++ '\n' :: ("graph TD\nA --> B".toList ++ '\n' :: fence) ∧
    getMermaidCode (some "```mermaid\ngraph TD\nA --> B\n```".toList) =
      "graph TD\nA --> B".toList :=
  ⟨by decide, by decide, by decide,
    (diagram_strips_single_fence "```mermaid\ngraph TD\nA --> B\n```".toList
      "graph TD\nA --> B".toList (by decide) (by decide) (Or.inl (by decide))).1⟩

/-- C4: for every prompt and style, when the Gemini enhancement call fails,
the enhancement requester returns exactly the string
`prompt, style, high resolution, ultra detailed, cinematic lighting`, and no
error is surfaced to the caller: with a working image upstream the /generate
request still succeeds with 200, carrying that fallback as the enhanced
prompt. -/
theorem enhancement_failure_exact_fallback
    (p s key : JStr) (gm : Option JStr) (r : HFResponse)
    (hp : p ≠ []) (hs : s ≠ []) (hk : key ≠ []) (hok : r.ok = true) :
    getEnhancedPrompt p s none =
      p ++ ", ".toList ++ s ++ ", high resolution, ultra detailed, cinematic lighting".toList ∧
    (postGenerate (some p) (some s) (some key) ⟨none, gm, some r⟩).1 =
      ⟨200, .generateOk
        (p ++ ", ".toList ++ s ++ ", high resolution, ultra detailed, cinematic lighting".toList)
        (dataUriStart ++ base64Encode r.bytes)⟩ := by
  have hfb : getEnhancedPrompt p s none =
      p ++ ", ".toList ++ s ++ ", high resolution, ultra detailed, cinematic lighting".toList := rfl
  refine ⟨hfb, ?_⟩
  have hp' : jsFalsy (some p) = false := by simp [jsFalsy, isEmpty_false_of_ne_nil hp]
  have hk' : jsFalsy (some key) = false := by simp [jsFalsy, isEmpty_false_of_ne_nil hk]
  have hst : jsOr (some s) realisticStyle = s := by simp [jsOr, isEmpty_false_of_ne_nil hs]
  simp [postGenerate, hp', hk', hst, hok, hfb]

/-- Witness for the C4 theorem on the spec's example inputs. -/
theorem enhancement_failure_exact_fallback_witness :
    "a red fox in snow".toList ≠ [] ∧ "anime".toList ≠ [] ∧ "k".toList ≠ [] ∧
    HFResponse.ok ⟨200, [77], []⟩ = true ∧
    getEnhancedPrompt "a red fox in snow".toList "anime".toList none =
      "a red fox in snow".toList ++ ", ".toList ++ "anime".toList ++
        ", high resolution, ultra detailed, cinematic lighting".toList :=
  ⟨by decide, by decide, by decide, by decide,
    (enhancement_failure_exact_fallback "a red fox in snow".toList "anime".toList
      "k".toList none ⟨200, [77], []⟩ (by decide) (by decide) (by decide) (by decide)).1⟩

/-- C5: for every prompt, when the Gemini call fails during diagram
generation, the diagram requester returns exactly the fixed two-node error
graph instead of propagating the failure, and the endpoint still responds 200
with that text. -/
theorem diagram_failure_fixed_error_graph (p : JStr) (ge : Option JStr)
    (hf : Option HFResponse) (hp : p ≠ []) :
    getMermaidCode none = "graph TD\nA[Error] --> B[Diagram Generation Failed]".toList ∧
    postGenerateDiagram (some p) ⟨ge, none, hf⟩ =
      (⟨200, .diagramOk ("graph TD\nA[Error] --> B[Diagram Generation Failed]".toList)⟩,
       [UpstreamCall.mermaidCall p]) := by
  refine ⟨rfl, ?_⟩
  have hp' : jsFalsy (some p) = false := by simp [jsFalsy, isEmpty_false_of_ne_nil hp]
  simp [postGenerateDiagram, hp']
  rfl

/-- Witness for the C5 theorem at a concrete prompt. -/
theorem diagram_failure_fixed_error_graph_witness :
    "a login flow".toList ≠ [] ∧
    postGenerateDiagram (some "a login flow".toList) ⟨none, none, none⟩ =
      (⟨200, .diagramOk ("graph TD\nA[Error] --> B[Diagram Generation Failed]".toList)⟩,
       [UpstreamCall.mermaidCall "a login flow".toList]) :=
  ⟨by decide,
    (diagram_failure_fixed_error_graph "a login flow".toList none none (by decide)).2⟩

/-- C6: for every POST /generate request with a present (truthy) prompt, when
the HuggingFace credential is missing or empty, the endpoint returns 500 with
the key-missing body and issues zero upstream calls: neither the enhancement
call nor the image call is made. -/
theorem generate_missing_key_500_no_calls (prompt style hfKey : Option JStr) (up : Upstream)
    (hp : jsFalsy prompt = false) (hk : jsFalsy hfKey = true) :
    postGenerate prompt style hfKey up = (⟨500, .errorMsg "HF Key missing".toList⟩, []) := by
  simp [postGenerate, hp, hk]

/-- Witness for the C6 theorem with an absent credential. -/
theorem generate_missing_key_500_no_calls_witness :
    jsFalsy (some "a cat".toList) = false ∧ jsFalsy (none : Option JStr) = true ∧
    postGenerate (some "a cat".toList) (some "anime".toList) none ⟨none, none, none⟩ =
      (⟨500, .errorMsg "HF Key missing".toList⟩, []) :=
  ⟨by decide, by decide,
    generate_missing_key_500_no_calls (some "a cat".toList) (some "anime".toList) none
      ⟨none, none, none⟩ (by decide) (by decide)⟩

/-- C7: for every successful POST /generate request, the handler first issues
the enhancement call, then submits exactly the enhancement result (not the
original prompt) as the image-model inputs, and answers 200 with a body
holding that enhanced prompt and the upstream bytes re-encoded as a base64
data URI. -/
theorem generate_success_flow (prompt style : Option JStr) (key : JStr)
    (ge gm : Option JStr) (r : HFResponse)
    (hp : jsFalsy prompt = false) (hk : key ≠ []) (hok : r.ok = true) :
    postGenerate prompt style (some key) ⟨ge, gm, some r⟩ =
      (⟨200, .generateOk (getEnhancedPrompt (prompt.getD []) (jsOr style realisticStyle) ge)
        (dataUriStart ++ base64Encode r.bytes)⟩,
       [UpstreamCall.enhanceCall (prompt.getD []) (jsOr style realisticStyle),
        UpstreamCall.imageCall (getEnhancedPrompt (prompt.getD []) (jsOr style realisticStyle) ge)]) := by
  have hk' : jsFalsy (some key) = false := by simp [jsFalsy, isEmpty_false_of_ne_nil hk]
  simp [postGenerate, hp, hk', hok]

/-- Witness for the C7 theorem on concrete inputs, with the enhanced text
visibly submitted to the image model and the data URI built from the bytes. -/
theorem generate_success_flow_witness :
    jsFalsy (some "a cat".toList) = false ∧ "k".toList ≠ [] ∧
    HFResponse.ok ⟨200, [77, 97, 110], []⟩ = true ∧
    postGenerate (some "a cat".toList) (some "anime".toList) (some "k".toList)
      ⟨some "an enhanced cat".toList, none, some ⟨200, [77, 97, 110], []⟩⟩ =
      (⟨200, .generateOk "an enhanced cat".toList "data:image/jpeg;base64,TWFu".toList⟩,
       [UpstreamCall.enhanceCall "a cat".toList "anime".toList,
        UpstreamCall.imageCall "an enhanced cat".toList]) :=
  ⟨by decide, by decide, by decide, by
    have h := generate_success_flow (some "a cat".toList) (some "anime".toList) "k".toList
      (some "an enhanced cat".toList) none ⟨200, [77, 97, 110], []⟩
      (by decide) (by decide) (by decide)
    rw [h]
    decide⟩

/-- C8: the single rate limit uses a fixed 15-minute window and a fixed
maximum of 100 requests; over any sequence of requests falling in one fixed
window, at most 100 are served, and every request not served receives the
configured JSON error body. -/
theorem rate_limit_window_bound (ts : List Nat) (w : Nat)
    (hw : ∀ t ∈ ts, t / rlWindowMs = w) :
    rlWindowMs = 15 * 60 * 1000 ∧ rlMax = 100 ∧
    (rlRun ts).countP (fun r => r.2.1) ≤ rlMax ∧
    (∀ r ∈ rlRun ts, r.2.1 = false → r.2.2 = some rlMessage) := by
  refine ⟨rfl, rfl, ?_, fun r hr => rlRunAux_unserved_body ts _ r hr⟩
  unfold rlRun
  by_cases h0 : w = 0
  · subst h0
    have := rlRunAux_served_count ts 0 0 hw
    simpa using this
  · match ts with
    | [] => simp [rlRunAux]
    | t :: ts' =>
        have htw : t / rlWindowMs = w := hw t (by simp)
        have hrec := rlRunAux_served_count ts' 1 w
          (fun t' ht' => hw t' (List.mem_cons_of_mem _ ht'))
        simp [rlRunAux, rlStep, htw, h0, List.countP_cons, rlMax] at hrec ⊢
        omega

/-- Witness for the C8 theorem with three requests in window 0. -/
theorem rate_limit_window_bound_witness :
    (∀ t ∈ [0, 1, 2], t / rlWindowMs = 0) ∧
    (rlWindowMs = 15 * 60 * 1000 ∧ rlMax = 100 ∧
     (rlRun [0, 1, 2]).countP (fun r => r.2.1) ≤ rlMax ∧
     (∀ r ∈ rlRun [0, 1, 2], r.2.1 = false → r.2.2 = some rlMessage)) :=
  ⟨by decide, rate_limit_window_bound [0, 1, 2] 0 (by decide)⟩

/-- C9: for every collection of at least 3 archived records with pairwise
distinct creation timestamps, the history listing returns exactly those
records (a permutation) ordered strictly by descending creation timestamp. -/
theorem history_sorted_desc (docs : List Archived)
    (hlen : 3 ≤ docs.length)
    (hnd : (docs.map (fun d => d.createdAt)).Nodup) :
    (fetchHistory docs).Pairwise (fun a b => b.createdAt < a.createdAt) ∧
    (fetchHistory docs).Perm docs := by
  have hperm : (fetchHistory docs).Perm docs := List.perm_insertionSort _ docs
  refine ⟨?_, hperm⟩
  have hsorted : (fetchHistory docs).Pairwise byCreatedAtDesc :=
    List.sorted_insertionSort byCreatedAtDesc docs
  have hne : docs.Pairwise (fun a b => a.createdAt ≠ b.createdAt) :=
    List.pairwise_map.mp hnd
  have hne' : (fetchHistory docs).Pairwise (fun a b => a.createdAt ≠ b.createdAt) :=
    (List.Perm.pairwise_iff (fun h he => h he.symm) hperm).mpr hne
  exact (hsorted.and hne').imp (fun h => lt_of_le_of_ne h.1 (fun he => h.2 he.symm))

/-- Witness for the C9 theorem on three concrete records. -/
theorem history_sorted_desc_witness :
    3 ≤ ([⟨[], [], [], [], [], [], 1⟩, ⟨[], [], [], [], [], [], 3⟩,
          ⟨[], [], [], [], [], [], 2⟩] : List Archived).length ∧
    (([⟨[], [], [], [], [], [], 1⟩, ⟨[], [], [], [], [], [], 3⟩,
       ⟨[], [], [], [], [], [], 2⟩] : List Archived).map (fun d => d.createdAt)).Nodup ∧
    ((fetchHistory [⟨[], [], [], [], [], [], 1⟩, ⟨[], [], [], [], [], [], 3⟩,
        ⟨[], [], [], [], [], [], 2⟩]).Pairwise (fun a b => b.createdAt < a.createdAt) ∧
     (fetchHistory [⟨[], [], [], [], [], [], 1⟩, ⟨[], [], [], [], [], [], 3⟩,
        ⟨[], [], [], [], [], [], 2⟩]).Perm
       [⟨[], [], [], [], [], [], 1⟩, ⟨[], [], [], [], [], [], 3⟩,
        ⟨[], [], [], [], [], [], 2⟩]) :=
  ⟨by decide, by decide,
    history_sorted_desc
      [⟨[], [], [], [], [], [], 1⟩, ⟨[], [], [], [], [], [], 3⟩, ⟨[], [], [], [], [], [], 2⟩]
      (by decide) (by decide)⟩

/-- C10: for every POST /generate request with a present prompt and configured
credential whose style field is missing or the empty string, the enhancement
requester is invoked with the style `realistic`: the first recorded upstream
call is the enhancement call with that default style. -/
theorem generate_defaults_style_realistic (prompt style : Option JStr)
    (key : JStr) (up : Upstream)
    (hp : jsFalsy prompt = false) (hk : key ≠ [])
    (hs : style = none ∨ style = some []) :
    (postGenerate prompt style (some key) up).2.head? =
      some (UpstreamCall.enhanceCall (prompt.getD []) realisticStyle) := by
  have hk' : jsFalsy (some key) = false := by simp [jsFalsy, isEmpty_false_of_ne_nil hk]
  have hst : jsOr style realisticStyle = realisticStyle := by
    rcases hs with h | h <;> simp [h, jsOr]
  obtain ⟨ge, gm, hfo⟩ := up
  match hfo with
  | none => simp [postGenerate, hp, hk', hst]
  | some r =>
      by_cases hok : r.ok <;>
        simp [postGenerate, hp, hk', hst, hok]

/-- Witness for the C10 theorem with an omitted style field. -/
theorem generate_defaults_style_realistic_witness :
    jsFalsy (some "a cat".toList) = false ∧ "k".toList ≠ [] ∧
    ((none : Option JStr) = none ∨ (none : Option JStr) = some []) ∧
    (postGenerate (some "a cat".toList) none (some "k".toList)
      ⟨none, none, none⟩).2.head? =
      some (UpstreamCall.enhanceCall "a cat".toList realisticStyle) :=
  ⟨by decide, by decide, Or.inl rfl,
    generate_defaults_style_realistic (some "a cat".toList) none "k".toList
      ⟨none, none, none⟩ (by decide) (by decide) (Or.inl rfl)⟩

end TextToVisual
